import Mathlib

/-
  Verification of the agreement trace-testing harness
  (agreement/state_machine_test.go).

  Shallow embedding conventions:
  * A Go `event` interface value may be nil; we model a trace slot as
    `Option Event` (`none` = Go nil).  An `Event` carries the data the
    harness actually inspects: its discriminant tag (`eventType`) and its
    `ComparableStr()` fingerprint.
  * A Go variadic slice may itself be nil; we model a slice argument as
    `Option (List α)` (`none` = nil slice).  A call `t.extend(e)` with a
    single argument passes the one-element slice `some [e]`; `t.extend()`
    with no arguments passes the nil slice `none`.
  * Fallible Go code returns `Except String α`; a Go runtime panic that
    escapes (nil-pointer dereference, out-of-range slice, an explicit
    `panic` call) is an `Except.error` at the point where Go would crash,
    while a panic that is caught by a `recover()` in the source is
    returned as a value on the typed panic-error channel, exactly as in
    the source.
  * The wrapped production state machine (`listener`, `rootRouter`) is
    outside this repository; the adapters only observe it through one
    invocation entry point.  We model a deterministic wrapped machine as
    a function of the input history (which captures arbitrary internal
    state), returning either an output or a panic.
-/

/-- Discriminant tags from eventtype_string.go. -/
def wrappedActionTag : Nat := 40

/-- An event as the harness observes it: discriminant tag plus the
`ComparableStr()` fingerprint, the only notion of equality the harness
uses for trace comparison. -/
structure Event where
  tag : Nat
  cmpStr : String
deriving DecidableEq, Repr

/-- A Go `event` interface value, which may be nil. -/
abbrev EventV := Option Event

/-- A Go slice, which may itself be nil (distinct from empty). -/
abbrev GoSlice (α : Type) := Option (List α)

/-- An action (agreement/actions.go): the harness only uses its
fingerprint, via the `wrappedActionEvent` wrapper. -/
structure ActionT where
  cmpStr : String
deriving DecidableEq, Repr

/-- Function `ev` of state_machine_test.go: wrap an action as an event
whose tag is `wrappedAction` and whose fingerprint delegates to the
action's own. The resulting interface value is never nil. -/
def ev (a : ActionT) : Event :=
  { tag := wrappedActionTag, cmpStr := a.cmpStr }

/-- Type `ioTrace`: a collapsed execution trace generated by a state
machine (state_machine_test.go lines 84-86). -/
structure ioTrace where
  events : List EventV
deriving DecidableEq, Repr

/-- Method `ioTrace.length` (line 88-90). -/
def ioTrace.length (t : ioTrace) : Nat :=
  t.events.length

/-- Method `ioTrace.extend` (lines 92-98).  The Go guard is
`if eventsToAppend == nil` - it tests the variadic slice itself for
nil-ness, not its elements; a non-nil slice is appended wholesale. -/
def ioTrace.extend (t : ioTrace) (eventsToAppend : GoSlice EventV) :
    Except String ioTrace :=
  match eventsToAppend with
  | none => .error "Cannot extend trace with nil event"
  | some es => .ok ⟨t.events ++ es⟩

/-- Helper for `ioTrace.checkWellFormed`: the Go loop over `t.events`
returning an error at the first nil entry (lines 100-107). -/
def checkWellFormedList : List EventV → Except String Unit
  | [] => .ok ()
  | none :: _ => .error "Trace contains nil event"
  | some _ :: rest => checkWellFormedList rest

/-- Method `ioTrace.checkWellFormed` (lines 100-107). -/
def ioTrace.checkWellFormed (t : ioTrace) : Except String Unit :=
  checkWellFormedList t.events

/-- Loop body of `directMatchIoSafetyProp.containsTrace`
(lines 247-260), recursing over (candidate, reference) event lists.
The loop runs over the candidate's indices; once the candidate index
passes the end of the reference it returns true; otherwise it calls
`ComparableStr()` on both events - a Go nil event there is a nil-pointer
panic, modelled as `none`. -/
def dmContains : List EventV → List EventV → Option Bool
  | [], _ => some true
  | _ :: _, [] => some true
  | tHead :: ts, rHead :: rs =>
    match tHead, rHead with
    | some te, some re =>
      if te.cmpStr ≠ re.cmpStr then some false else dmContains ts rs
    | _, _ => none

/-- Type `directMatchIoSafetyProp` (lines 242-244). -/
structure directMatchIoSafetyProp where
  directMatchTrace : ioTrace
deriving DecidableEq, Repr

/-- Method `directMatchIoSafetyProp.containsTrace` (lines 247-260).
Returns the Go triple (contains, info, err); the source only ever
returns `("", nil)` for the last two.  `none` is a panic during the
comparison (ComparableStr on a nil event). -/
def directMatchIoSafetyProp.containsTrace (e : directMatchIoSafetyProp)
    (trace : ioTrace) : Option (Bool × String × Option String) :=
  (dmContains trace.events e.directMatchTrace.events).map
    (fun b => (b, "", none))

/-- The wrapped production state machine seen by `ioAutomataConcrete`
(the `listener` plus its router/player context, all outside this
repository).  A deterministic machine is a function of the history of
inputs it has consumed (capturing its internal state):
* `handle hist input` is the result of `listener.handle` on the next
  input: `.ok out` is a normal return of the output event (which may be
  a nil interface value), `.error r` is a panic with payload `r`,
  caught by the `recover()` in `callHandler` (lines 336-350);
* `dispatched hist input` is the list of events appended to the visible
  trace by the hijacked `router.dispatch` (lines 329-334) during this
  `handle` call (each inner dispatch appends the dispatched event and
  the routed result); on a panicking call these are the events that were
  dispatched before the panic. -/
structure Listener where
  handle : List EventV → EventV → Except String EventV
  dispatched : List EventV → EventV → List EventV

/-- Mutable state of `ioAutomataConcrete` (lines 298-309): the hidden
trace, the visible trace, and the wrapped listener's state, represented
by the history of inputs consumed so far. -/
structure ioAutomataConcrete where
  savedHiddenTrace : ioTrace
  savedTrace : ioTrace
  history : List EventV
deriving Repr

/-- Method `ioAutomataConcrete.getTrace` (lines 311-313). -/
def ioAutomataConcrete.getTrace (w : ioAutomataConcrete) : ioTrace :=
  w.savedHiddenTrace

/-- Method `ioAutomataConcrete.resetTrace` (lines 316-319): resets both
saved traces; the wrapped machine's own state is untouched. -/
def ioAutomataConcrete.resetTrace (w : ioAutomataConcrete) :
    ioAutomataConcrete :=
  { w with savedHiddenTrace := ⟨[]⟩, savedTrace := ⟨[]⟩ }

/-- Method `ioAutomataConcrete.getTraceVisible` (lines 321-323). -/
def ioAutomataConcrete.getTraceVisible (w : ioAutomataConcrete) : ioTrace :=
  w.savedTrace

/-- Go `error` values produced by this file, as an inductive: `msg` is a
leaf error (an `fmt.Errorf` of the source, or an error value passed
through); the remaining constructors are the distinct errors built by
`ValidateAsExtension`, carrying the data the source formats into the
message (for `traceDiverge` the source stores `String()` renderings of
the two traces; we carry the traces themselves). -/
inductive GoErr where
  | msg (s : String)
  | malformedTestCase
  | outputsContainNil (inner : String)
  | traceDiverge (expected actual : ioTrace)
  | panickedWhenNotExpected (p : GoErr)
  | didNotPanic
  | inputSizeInconsistent
  | panickedEarly (outLen expLen : Nat) (p : GoErr)
  | traceTooShort (outLen expLen : Nat)
  | safetyPropEvalErr
  | traceNotInSafetyProp (info : String)
deriving DecidableEq, Repr

/-- Method `ioAutomataConcrete.transition` (lines 352-378), returning
(new state, err, panicErr).  `callHandler` runs the wrapped listener:
nested dispatches extend the visible trace even if the handler later
panics; a panic is caught by `recover()` and converted to the typed
panic error (`fmt.Errorf` of the payload), so it never propagates out
of the adapter.  On normal return the four `extend` calls append the
(input, output) pair to the hidden and then the visible trace, each
call checked for an error exactly as in the source (each passes a
one-element non-nil slice). -/
def ioAutomataConcrete.transition (l : Listener) (w : ioAutomataConcrete)
    (inputTraceEvent : EventV) :
    ioAutomataConcrete × Option GoErr × Option GoErr :=
  let vis0 : ioTrace := ⟨w.savedTrace.events ++ l.dispatched w.history inputTraceEvent⟩
  let hist1 := w.history ++ [inputTraceEvent]
  match l.handle w.history inputTraceEvent with
  | .error r =>
      ({ savedHiddenTrace := w.savedHiddenTrace, savedTrace := vis0,
         history := hist1 }, none, some (.msg r))
  | .ok out =>
    match w.savedHiddenTrace.extend (some [inputTraceEvent]) with
    | .error e =>
        ({ savedHiddenTrace := w.savedHiddenTrace, savedTrace := vis0,
           history := hist1 }, some (.msg e), none)
    | .ok hid1 =>
      match hid1.extend (some [out]) with
      | .error e =>
          ({ savedHiddenTrace := hid1, savedTrace := vis0,
             history := hist1 }, some (.msg e), none)
      | .ok hid2 =>
        match vis0.extend (some [inputTraceEvent]) with
        | .error e =>
            ({ savedHiddenTrace := hid2, savedTrace := vis0,
               history := hist1 }, some (.msg e), none)
        | .ok vis1 =>
          match vis1.extend (some [out]) with
          | .error e =>
              ({ savedHiddenTrace := hid2, savedTrace := vis1,
                 history := hist1 }, some (.msg e), none)
          | .ok vis2 =>
              ({ savedHiddenTrace := hid2, savedTrace := vis2,
                 history := hist1 }, none, none)

/-- Method `ioAutomataConcrete.transitionAll` (lines 380-388): apply
`transition` to each input in order, short-circuiting on the first
non-nil err or panicErr. -/
def ioAutomataConcrete.transitionAll (l : Listener) (w : ioAutomataConcrete) :
    List EventV → ioAutomataConcrete × Option GoErr × Option GoErr
  | [] => (w, none, none)
  | i :: is =>
    match ioAutomataConcrete.transition l w i with
    | (w1, none, none) => ioAutomataConcrete.transitionAll l w1 is
    | (w1, e, p) => (w1, e, p)

/-- The wrapped production network seen by `ioAutomataConcretePlayer`: a
deterministic `rootRouter.submitTop` as a function of the input history,
returning the resulting top-level action list, or a panic (caught by the
`recover()` in `callSubmitTop`, lines 590-606). -/
structure PlayerMachine where
  submitTop : List EventV → EventV → Except String (List ActionT)

/-- Mutable state of `ioAutomataConcretePlayer` (lines 564-571): the
saved trace is a Go pointer, `none` = nil. -/
structure ioAutomataConcretePlayer where
  savedTrace : Option ioTrace
  history : List EventV
deriving Repr

/-- Method `ioAutomataConcretePlayer.getTrace` (lines 573-575):
dereferences the saved-trace pointer; on a nil pointer Go panics. -/
def ioAutomataConcretePlayer.getTrace (w : ioAutomataConcretePlayer) :
    Except String ioTrace :=
  match w.savedTrace with
  | none => .error "runtime error: invalid memory address or nil pointer dereference"
  | some t => .ok t

/-- Method `ioAutomataConcretePlayer.resetTrace` (lines 578-580): sets
the saved-trace pointer to nil. -/
def ioAutomataConcretePlayer.resetTrace (w : ioAutomataConcretePlayer) :
    ioAutomataConcretePlayer :=
  { w with savedTrace := none }

/-- Method `ioAutomataConcretePlayer.getTraceVisible` (lines 582-584):
the source body is an unconditional Go `panic` with payload
"unsupported". -/
def ioAutomataConcretePlayer.getTraceVisible (_w : ioAutomataConcretePlayer) :
    Except String ioTrace :=
  .error "unsupported"

/-- Method `ioAutomataConcretePlayer.transition` (lines 608-632):
lazily allocate the saved trace and the tracer, call `submitTop`
(panics caught and returned on the typed channel), wrap every resulting
action as an event (`ev`, so every output slot is non-nil), then extend
the single trace with the input and with the output slice. The output
slice comes from Go `make` and is therefore never a nil slice. -/
def ioAutomataConcretePlayer.transition (m : PlayerMachine)
    (w : ioAutomataConcretePlayer) (inputTraceEvent : EventV) :
    ioAutomataConcretePlayer × Option GoErr × Option GoErr :=
  let st0 : ioTrace := match w.savedTrace with
    | none => ⟨[]⟩
    | some t => t
  let hist1 := w.history ++ [inputTraceEvent]
  match m.submitTop w.history inputTraceEvent with
  | .error r =>
      ({ savedTrace := some st0, history := hist1 }, none, some (.msg r))
  | .ok actions =>
      let outEvents : List EventV := actions.map (fun a => some (ev a))
      match st0.extend (some [inputTraceEvent]) with
      | .error e =>
          ({ savedTrace := some st0, history := hist1 }, some (.msg e), none)
      | .ok t1 =>
        match t1.extend (some outEvents) with
        | .error e =>
            ({ savedTrace := some t1, history := hist1 }, some (.msg e), none)
        | .ok t2 =>
            ({ savedTrace := some t2, history := hist1 }, none, none)

/-- Method `ioAutomataConcretePlayer.transitionAll` (lines 634-642). -/
def ioAutomataConcretePlayer.transitionAll (m : PlayerMachine)
    (w : ioAutomataConcretePlayer) :
    List EventV → ioAutomataConcretePlayer × Option GoErr × Option GoErr
  | [] => (w, none, none)
  | i :: is =>
    match ioAutomataConcretePlayer.transition m w i with
    | (w1, none, none) => ioAutomataConcretePlayer.transitionAll m w1 is
    | (w1, e, p) => (w1, e, p)

/-- An `ioSafetyProp` as the validator consumes it: its whole-trace
check (lines 179-188).  The result is the Go triple; `none` is a panic
during evaluation. -/
structure SafetyProp where
  containsTrace : ioTrace → Option (Bool × String × Option GoErr)

/-- Type `determisticTraceTestCase` (lines 399-403). -/
structure determisticTraceTestCase where
  inputs : List EventV
  expectedOutputs : List EventV
  safetyProps : List SafetyProp

/-- The expected-trace construction of `ValidateAsExtension`
(lines 428-434): an array of size `2 * len(expectedOutputs)`, where
slot pair i is `(inputs[i], expectedOutputs[i])` when `i < len(inputs)`
and stays nil otherwise (the loop runs over input indices and only
assigns pairs with an expected output). Recursing on the two lists in
lockstep implements exactly that indexed loop. -/
def buildAllEvents : List EventV → List EventV → List EventV
  | _, [] => []
  | [], _ :: os => none :: none :: buildAllEvents [] os
  | i :: is, o :: os => i :: o :: buildAllEvents is os

/-- The safety-property loop of `ValidateAsExtension` (lines 489-497):
each property is evaluated on the entire output trace; an evaluation
error is a runtime error, a rejection is an invalid verdict, and the
first of either ends the loop. -/
def evalSafetyProps : List SafetyProp → ioTrace →
    Except String (Option GoErr × Option GoErr)
  | [], _ => .ok (none, none)
  | sp :: rest, tr =>
    match sp.containsTrace tr with
    | none => .error "panic during safety property evaluation"
    | some (good, m, e) =>
      match e with
      | some _ => .ok (none, some .safetyPropEvalErr)
      | none =>
        if good then evalSafetyProps rest tr
        else .ok (some (.traceNotInSafetyProp m), none)

/-- The length-sanity check and safety-property evaluation of
`ValidateAsExtension` (lines 476-499): note the comparison is between
the length of the full output trace and the length of the expected
(extension) trace. -/
def lengthCheckAndProps (testCase : determisticTraceTestCase)
    (panicErr : Option GoErr) (outputTrace expectedFinalTrace : ioTrace) :
    Except String (Option GoErr × Option GoErr) :=
  if outputTrace.length < expectedFinalTrace.length then
    match panicErr with
    | some p =>
        .ok (some (.panickedEarly outputTrace.length expectedFinalTrace.length p), none)
    | none =>
        .ok (some (.traceTooShort outputTrace.length expectedFinalTrace.length), none)
  else
    evalSafetyProps testCase.safetyProps outputTrace

/-- The crash-expectation cross-check of `ValidateAsExtension`
(lines 459-474) followed by the length check and the safety-property
loop; reached only with a valid (prefix-matching) trace extension. -/
def crossCheckAndFinish (testCase : determisticTraceTestCase)
    (panicErr : Option GoErr) (outputTrace expectedFinalTrace : ioTrace) :
    Except String (Option GoErr × Option GoErr) :=
  if testCase.inputs.length = testCase.expectedOutputs.length then
    match panicErr with
    | some p => .ok (some (.panickedWhenNotExpected p), none)
    | none => lengthCheckAndProps testCase panicErr outputTrace expectedFinalTrace
  else if testCase.inputs.length = testCase.expectedOutputs.length + 1 then
    match panicErr with
    | none => .ok (some .didNotPanic, none)
    | some _ => lengthCheckAndProps testCase panicErr outputTrace expectedFinalTrace
  else
    .ok (some .inputSizeInconsistent, none)

/-- What `ValidateAsExtension` observes of its `ioAutomata` argument:
the result of the initial `getTrace()` call (line 425), and, as a
function of the inputs it drives, the `(err, panicErr)` pair returned
by `transitionAll` (line 440) together with the result of the
subsequent `getTrace()` call (line 444).  Panicking calls are
`.error`. -/
structure AutoSession where
  trace0 : Except String ioTrace
  run : List EventV → (Option GoErr × Option GoErr) × Except String ioTrace

/-- The session presented by an `ioAutomataConcrete` wrapping listener
`l` in state `w`: its `getTrace` never panics. -/
def concreteSession (l : Listener) (w : ioAutomataConcrete) : AutoSession where
  trace0 := .ok w.getTrace
  run := fun inputs =>
    match ioAutomataConcrete.transitionAll l w inputs with
    | (w1, e, p) => ((e, p), .ok w1.getTrace)

/-- The session presented by an `ioAutomataConcretePlayer` wrapping
machine `m` in state `w`: both `getTrace` calls dereference the
saved-trace pointer and panic when it is nil. -/
def playerSession (m : PlayerMachine) (w : ioAutomataConcretePlayer) :
    AutoSession where
  trace0 := w.getTrace
  run := fun inputs =>
    match ioAutomataConcretePlayer.transitionAll m w inputs with
    | (w1, e, p) => ((e, p), w1.getTrace)

/-- Method `determisticTraceTestCase.ValidateAsExtension`
(lines 413-500), following the source's control flow step by step:
shape precondition, existing trace length, expected-trace construction
and well-formedness, driving via `transitionAll`, err propagation,
extension slicing (a Go panic if the recorded length exceeds the new
trace's length), direct-match validation (a Go panic if a nil event is
compared), divergence verdict, then `crossCheckAndFinish`.  The result
is the Go pair (invalidErr, runtimeErr); a top-level `.error` is an
uncaught panic, which Go would let crash the test. -/
def ValidateAsExtension (testCase : determisticTraceTestCase)
    (automaton : AutoSession) : Except String (Option GoErr × Option GoErr) :=
  if testCase.inputs.length ≠ testCase.expectedOutputs.length ∧
     testCase.inputs.length ≠ testCase.expectedOutputs.length + 1 then
    .ok (none, some .malformedTestCase)
  else
    match automaton.trace0 with
    | .error p => .error p
    | .ok preTrace =>
      let existingTraceLength := preTrace.events.length
      let expectedFinalTrace : ioTrace :=
        ⟨buildAllEvents testCase.inputs testCase.expectedOutputs⟩
      match expectedFinalTrace.checkWellFormed with
      | .error e => .ok (none, some (.outputsContainNil e))
      | .ok _ =>
        match automaton.run testCase.inputs with
        | ((some e, _), _) => .ok (none, some e)
        | ((none, panicErr), afterTrace) =>
          match afterTrace with
          | .error p => .error p
          | .ok outputTrace =>
            if outputTrace.events.length < existingTraceLength then
              .error "runtime error: slice bounds out of range"
            else
              let outputTraceExtension : ioTrace :=
                ⟨outputTrace.events.drop existingTraceLength⟩
              match (directMatchIoSafetyProp.mk expectedFinalTrace).containsTrace
                  outputTraceExtension with
              | none =>
                  .error "runtime error: invalid memory address or nil pointer dereference"
              | some (_, _, some e) => .ok (none, some (.msg e))
              | some (traceValid, _, none) =>
                if traceValid then
                  crossCheckAndFinish testCase panicErr outputTrace expectedFinalTrace
                else
                  .ok (some (.traceDiverge expectedFinalTrace outputTraceExtension), none)

/-- Method `determisticTraceTestCase.Validate` (lines 407-409): drive an
automaton at zero state; it simply delegates to `ValidateAsExtension`. -/
def Validate (testCase : determisticTraceTestCase) (automaton : AutoSession) :
    Except String (Option GoErr × Option GoErr) :=
  ValidateAsExtension testCase automaton

/- Helper lemmas -/

/-- Characterisation of `checkWellFormed`: success is exactly nil-freedom. -/
theorem checkWellFormedList_ok_iff (es : List EventV) :
    checkWellFormedList es = .ok () ↔ ∀ x ∈ es, x ≠ none := by
  induction es with
  | nil => simp [checkWellFormedList]
  | cons h t ih =>
    cases h with
    | none => simp [checkWellFormedList]
    | some e => simp [checkWellFormedList, ih]

/-- On a nil-free reference, the direct-match loop accepts the reference
itself extended by any suffix. -/
theorem dmContains_append_self (es : List EventV)
    (hs : ∀ x ∈ es, x ≠ none) :
    ∀ tail, dmContains (es ++ tail) es = some true := by
  induction es with
  | nil => intro tail; cases tail <;> rfl
  | cons h t ih =>
    intro tail
    obtain ⟨e, rfl⟩ : ∃ e, h = some e := by
      cases h with
      | none => exact absurd rfl (hs none (by simp))
      | some e => exact ⟨e, rfl⟩
    simp only [List.cons_append, dmContains]
    rw [if_neg (by simp)]
    exact ih (fun x hx => hs x (List.mem_cons_of_mem _ hx)) tail

/-- Unwrapping the triple around the direct-match loop. -/
theorem containsTrace_eq_true_iff_dm (p : directMatchIoSafetyProp)
    (t : ioTrace) :
    p.containsTrace t = some (true, "", none) ↔
      dmContains t.events p.directMatchTrace.events = some true := by
  unfold directMatchIoSafetyProp.containsTrace
  cases dmContains t.events p.directMatchTrace.events with
  | none => simp
  | some b => cases b <;> simp

/-- Characterisation of the direct-match loop on nil-free lists: it
returns true exactly when the two lists carry equal fingerprints at
every index both of them have. -/
theorem dmContains_eq_true_iff (ts : List EventV) :
    ∀ rs : List EventV, (∀ x ∈ ts, x ≠ none) → (∀ x ∈ rs, x ≠ none) →
      (dmContains ts rs = some true ↔
        ∀ i, i < min rs.length ts.length →
          (ts.getD i none).map Event.cmpStr =
            (rs.getD i none).map Event.cmpStr) := by
  induction ts with
  | nil => intro rs _ _; simp [dmContains]
  | cons h t ih =>
    intro rs hts hrs
    cases rs with
    | nil => simp [dmContains]
    | cons rh rt =>
      obtain ⟨e, rfl⟩ : ∃ e, h = some e := by
        cases h with
        | none => exact absurd rfl (hts none (by simp))
        | some e => exact ⟨e, rfl⟩
      obtain ⟨re, rfl⟩ : ∃ e2, rh = some e2 := by
        cases rh with
        | none => exact absurd rfl (hrs none (by simp))
        | some e2 => exact ⟨e2, rfl⟩
      have ht2 : ∀ x ∈ t, x ≠ none :=
        fun x hx => hts x (List.mem_cons_of_mem _ hx)
      have hrt2 : ∀ x ∈ rt, x ≠ none :=
        fun x hx => hrs x (List.mem_cons_of_mem _ hx)
      by_cases hc : e.cmpStr = re.cmpStr
      · simp only [dmContains]
        rw [if_neg (by simpa using hc)]
        rw [ih rt ht2 hrt2]
        constructor
        · intro hAll i hi
          cases i with
          | zero => simp [hc]
          | succ j =>
            have hj : j < min rt.length t.length := by
              simp only [List.length_cons] at hi; omega
            simpa using hAll j hj
        · intro hAll j hj
          have hjj : j + 1 < min (rt.length + 1) (t.length + 1) := by omega
          have := hAll (j + 1) (by simpa using hjj)
          simpa using this
      · simp only [dmContains]
        rw [if_pos (by simpa using hc)]
        constructor
        · intro hcontra; simp at hcontra
        · intro hAll
          exfalso
          have h0 := hAll 0 (by simp)
          simp at h0
          exact hc h0

/-- The expected trace interleaves one slot pair per expected output. -/
theorem buildAllEvents_length (is os : List EventV) :
    (buildAllEvents is os).length = 2 * os.length := by
  induction os generalizing is with
  | nil => cases is <;> simp [buildAllEvents]
  | cons o ot ih =>
    cases is with
    | nil =>
      simp only [buildAllEvents, List.length_cons, ih, List.length_nil]
      omega
    | cons i it =>
      simp only [buildAllEvents, List.length_cons, ih, List.length_cons]
      omega

/-- The ordinary error returned by the single-listener adapter's
`transition` is always nil: every `extend` call it makes passes a
non-nil one-element slice. -/
theorem concrete_transition_err_none (l : Listener) (w : ioAutomataConcrete)
    (i : EventV) :
    (ioAutomataConcrete.transition l w i).2.1 = none := by
  unfold ioAutomataConcrete.transition
  cases l.handle w.history i <;> simp [ioTrace.extend]

/-- The ordinary error returned by the single-listener adapter's
`transitionAll` is always nil. -/
theorem concrete_transitionAll_err_none (l : Listener)
    (inputs : List EventV) : ∀ w : ioAutomataConcrete,
    (ioAutomataConcrete.transitionAll l w inputs).2.1 = none := by
  induction inputs with
  | nil => intro w; rfl
  | cons i it ih =>
    intro w
    have he := concrete_transition_err_none l w i
    unfold ioAutomataConcrete.transitionAll
    rcases htr : ioAutomataConcrete.transition l w i with ⟨w1, e, p⟩
    rw [htr] at he
    simp only at he
    subst he
    cases p with
    | none => exact ih w1
    | some q => rfl

/-- The ordinary error returned by the network adapter's `transition`
is always nil: the input is a one-element non-nil slice and the output
slice comes from Go `make`, which never yields a nil slice. -/
theorem player_transition_err_none (m : PlayerMachine)
    (w : ioAutomataConcretePlayer) (i : EventV) :
    (ioAutomataConcretePlayer.transition m w i).2.1 = none := by
  unfold ioAutomataConcretePlayer.transition
  cases m.submitTop w.history i <;> simp [ioTrace.extend]

/-- The ordinary error returned by the network adapter's
`transitionAll` is always nil. -/
theorem player_transitionAll_err_none (m : PlayerMachine)
    (inputs : List EventV) : ∀ w : ioAutomataConcretePlayer,
    (ioAutomataConcretePlayer.transitionAll m w inputs).2.1 = none := by
  induction inputs with
  | nil => intro w; rfl
  | cons i it ih =>
    intro w
    have he := player_transition_err_none m w i
    unfold ioAutomataConcretePlayer.transitionAll
    rcases htr : ioAutomataConcretePlayer.transition m w i with ⟨w1, e, p⟩
    rw [htr] at he
    simp only at he
    subst he
    cases p with
    | none => exact ih w1
    | some q => rfl

/-- Reduction of `ValidateAsExtension` under a successful, err-free,
prefix-matching run: it reaches the crash cross-check. -/
theorem validate_reduces (tc : determisticTraceTestCase) (a : AutoSession)
    (t0 ext : List EventV) (pe : Option GoErr)
    (hshape : tc.inputs.length = tc.expectedOutputs.length ∨
              tc.inputs.length = tc.expectedOutputs.length + 1)
    (h0 : a.trace0 = .ok ⟨t0⟩)
    (h1 : a.run tc.inputs = ((none, pe), .ok ⟨t0 ++ ext⟩))
    (h2 : checkWellFormedList (buildAllEvents tc.inputs tc.expectedOutputs) = .ok ())
    (h3 : dmContains ext (buildAllEvents tc.inputs tc.expectedOutputs) = some true) :
    ValidateAsExtension tc a =
      crossCheckAndFinish tc pe ⟨t0 ++ ext⟩
        ⟨buildAllEvents tc.inputs tc.expectedOutputs⟩ := by
  have hcond : ¬ (tc.inputs.length ≠ tc.expectedOutputs.length ∧
      tc.inputs.length ≠ tc.expectedOutputs.length + 1) := by
    rcases hshape with h | h <;> simp [h]
  unfold ValidateAsExtension
  rw [if_neg hcond, h0]
  simp only [ioTrace.checkWellFormed, h2]
  rw [h1]
  dsimp only
  have hlen : ¬ ((t0 ++ ext).length < t0.length) := by
    simp [List.length_append]
  rw [if_neg hlen, List.drop_left]
  simp only [directMatchIoSafetyProp.containsTrace, h3]
  rfl

/-- A successful verdict is impossible past the crash cross-check when
the full output trace is shorter than the expected trace: the length
check would have produced an invalid verdict. -/
theorem crossCheckAndFinish_ok_not_short (tc : determisticTraceTestCase)
    (pe : Option GoErr) (otr expT : ioTrace)
    (h : crossCheckAndFinish tc pe otr expT = .ok (none, none)) :
    ¬ (otr.length < expT.length) := by
  intro hlt
  unfold crossCheckAndFinish at h
  by_cases h1 : tc.inputs.length = tc.expectedOutputs.length
  · rw [if_pos h1] at h
    cases pe with
    | some p => simp at h
    | none =>
      unfold lengthCheckAndProps at h
      rw [if_pos hlt] at h
      simp at h
  · rw [if_neg h1] at h
    by_cases h2 : tc.inputs.length = tc.expectedOutputs.length + 1
    · rw [if_pos h2] at h
      cases pe with
      | none => simp at h
      | some p =>
        unfold lengthCheckAndProps at h
        rw [if_pos hlt] at h
        simp at h
    · rw [if_neg h2] at h
      simp at h

/-- Decidable equality of Go results, so that concrete runs can be
checked by evaluation. -/
instance {ε α : Type} [DecidableEq ε] [DecidableEq α] : DecidableEq (Except ε α)
  | .error a, .error b => decidable_of_iff (a = b) (by simp)
  | .error _, .ok _ => isFalse (fun h => Except.noConfusion h)
  | .ok _, .error _ => isFalse (fun h => Except.noConfusion h)
  | .ok a, .ok b => decidable_of_iff (a = b) (by simp)

/- Concrete fixtures: events with fingerprints of the agreement event
kinds, sample listeners/machines, adapter states and test cases, used
by the concrete instantiations below. -/

def evTimeout : EventV := some ⟨8, "timeout"⟩

def evPayload : EventV := some ⟨2, "payloadPresent"⟩

def evNewRound : EventV := some ⟨26, "newRound"⟩

def evNewPeriod : EventV := some ⟨27, "newPeriod"⟩

def evFiltered : EventV := some ⟨16, "voteFiltered"⟩

/-- A listener answering the first input with `voteFiltered` and
panicking on the second input. -/
def listenerDivergeThenPanic : Listener where
  handle := fun hist _ => if hist.length = 0 then .ok evFiltered else .error "boom"
  dispatched := fun _ _ => []

/-- A listener answering the first input with `newRound` and panicking
on the second input. -/
def listenerGoodThenPanic : Listener where
  handle := fun hist _ => if hist.length = 0 then .ok evNewRound else .error "boom"
  dispatched := fun _ _ => []

/-- A listener that panics on every input. -/
def listenerAlwaysPanic : Listener where
  handle := fun _ _ => .error "boom"
  dispatched := fun _ _ => []

/-- A fresh single-listener adapter state. -/
def freshConcrete : ioAutomataConcrete := ⟨⟨[]⟩, ⟨[]⟩, []⟩

/-- A single-listener adapter state whose traces already hold one
input/output pair from an earlier run. -/
def preDrivenConcrete : ioAutomataConcrete :=
  ⟨⟨[evTimeout, evNewRound]⟩, ⟨[evTimeout, evNewRound]⟩, [evTimeout]⟩

/-- A network whose top-level submission returns no actions. -/
def machineNoActions : PlayerMachine := ⟨fun _ _ => .ok []⟩

/-- A fresh network adapter: its saved-trace pointer is nil. -/
def freshPlayer : ioAutomataConcretePlayer := ⟨none, []⟩

/-- A network adapter whose saved trace is allocated and empty. -/
def allocatedPlayer : ioAutomataConcretePlayer := ⟨some ⟨[]⟩, []⟩

def tcTwoPairs : determisticTraceTestCase :=
  ⟨[evTimeout, evPayload], [evNewRound, evNewPeriod], []⟩

def tcPanicExpected : determisticTraceTestCase :=
  ⟨[evTimeout, evPayload], [evNewRound], []⟩

def tcOnePair : determisticTraceTestCase := ⟨[evTimeout], [evNewRound], []⟩

def tcMalformed : determisticTraceTestCase :=
  ⟨[evTimeout], [evNewRound, evNewPeriod, evFiltered], []⟩

/- Claim theorems -/

/-- C1: the spec (and the trace type's own doc comment, "It cannot
contain nil events", with the guard's own message "Cannot extend trace
with nil event") demands that `extend` fail whenever asked to append a
nil event; but the source guard tests the variadic slice itself
(`eventsToAppend == nil`), which is non-nil for the call passing a
single nil event, so that call succeeds and silently appends a nil
event that `checkWellFormed` then rejects; the guard only fires for a
call passing the nil slice (zero variadic arguments). -/
theorem extend_nil_event_silently_appended :
    ioTrace.extend ⟨[]⟩ (some [none]) = .ok ⟨[none]⟩
    ∧ ioTrace.checkWellFormed ⟨[none]⟩ = .error "Trace contains nil event"
    ∧ ioTrace.extend ⟨[]⟩ none = .error "Cannot extend trace with nil event" :=
  ⟨rfl, rfl, rfl⟩

/-- Formalisation of claim C4 as stated: the direct-match property
accepts a candidate iff every index within the bounds of the reference
is also within the candidate's bounds with agreeing fingerprints there
(candidate events beyond the reference unconstrained). -/
def ClaimC4 : Prop :=
  ∀ r t : ioTrace,
    (directMatchIoSafetyProp.mk r).containsTrace t = some (true, "", none) ↔
    ∀ i, i < r.events.length →
      i < t.events.length ∧
      (t.events.getD i none).map Event.cmpStr =
        (r.events.getD i none).map Event.cmpStr

/-- C4 (counterexample): the loop of `containsTrace` iterates over the
candidate's indices only, so the empty candidate trace is accepted
against a one-event reference even though the reference's index 0 is
matched by no candidate event. -/
theorem directMatch_shorter_candidate_counterexample : ¬ ClaimC4 := by
  intro h
  have h1 := (h ⟨[evTimeout]⟩ ⟨[]⟩).mp rfl 0 (by decide)
  exact absurd h1.1 (by decide)

/-- C4 (amended): for nil-free traces (the trace invariant), the
direct-match property accepts the candidate iff the fingerprints agree
at every index within the bounds of BOTH traces: candidate events
beyond the reference are unconstrained, and a candidate shorter than
the reference is also accepted whenever it matches on all the indices
it has. -/
theorem directMatch_prefix_iff_amended (r t : ioTrace)
    (hr : r.checkWellFormed = .ok ()) (ht : t.checkWellFormed = .ok ()) :
    ((directMatchIoSafetyProp.mk r).containsTrace t = some (true, "", none)) ↔
    ∀ i, i < min r.events.length t.events.length →
      (t.events.getD i none).map Event.cmpStr =
        (r.events.getD i none).map Event.cmpStr := by
  rw [containsTrace_eq_true_iff_dm]
  exact dmContains_eq_true_iff t.events r.events
    ((checkWellFormedList_ok_iff _).mp ht) ((checkWellFormedList_ok_iff _).mp hr)

/-- Witness for the amended C4 at a concrete pair of traces. -/
theorem directMatch_prefix_iff_amended_witness :
    ((directMatchIoSafetyProp.mk ⟨[evTimeout]⟩).containsTrace
        ⟨[evTimeout, evNewRound]⟩ = some (true, "", none)) ↔
    ∀ i, i < min ([evTimeout] : List EventV).length
        ([evTimeout, evNewRound] : List EventV).length →
      (([evTimeout, evNewRound] : List EventV).getD i none).map Event.cmpStr =
        (([evTimeout] : List EventV).getD i none).map Event.cmpStr :=
  directMatch_prefix_iff_amended ⟨[evTimeout]⟩ ⟨[evTimeout, evNewRound]⟩ rfl rfl

/-- C8: on a well-formed trace (the trace invariant: no nil events),
the direct-match property built from T accepts T itself, and accepts
T extended by any one additional event. -/
theorem directMatch_reflexive_and_prefix_monotonic (T : ioTrace)
    (h : T.checkWellFormed = .ok ()) :
    (directMatchIoSafetyProp.mk T).containsTrace T = some (true, "", none)
    ∧ ∀ e : EventV,
        (directMatchIoSafetyProp.mk T).containsTrace ⟨T.events ++ [e]⟩ =
          some (true, "", none) := by
  have hs := (checkWellFormedList_ok_iff T.events).mp h
  constructor
  · rw [containsTrace_eq_true_iff_dm]
    have h2 := dmContains_append_self T.events hs []
    simpa using h2
  · intro e
    rw [containsTrace_eq_true_iff_dm]
    exact dmContains_append_self T.events hs [e]

/-- Witness for C8 at a concrete trace. -/
theorem directMatch_reflexive_and_prefix_monotonic_witness :
    (directMatchIoSafetyProp.mk ⟨[evTimeout]⟩).containsTrace ⟨[evTimeout]⟩ =
      some (true, "", none)
    ∧ ∀ e : EventV,
        (directMatchIoSafetyProp.mk ⟨[evTimeout]⟩).containsTrace
          ⟨[evTimeout] ++ [e]⟩ = some (true, "", none) :=
  directMatch_reflexive_and_prefix_monotonic ⟨[evTimeout]⟩ rfl

/-- Formalisation of claim C5 as stated: both adapter variants support
the full trace contract, in particular `getTraceVisible` returns the
visible trace (for the network adapter: returns at all, rather than
panicking) and `resetTrace` resets the traces together. -/
def ClaimC5 : Prop :=
  (∀ w : ioAutomataConcrete,
     w.getTraceVisible = w.savedTrace ∧
     w.resetTrace.savedHiddenTrace = ⟨[]⟩ ∧ w.resetTrace.savedTrace = ⟨[]⟩)
  ∧ (∀ w : ioAutomataConcretePlayer, ∃ t, w.getTraceVisible = .ok t)

/-- C5 (counterexample): the network adapter does not support
`getTraceVisible`; its body is an unconditional panic with payload
"unsupported", never a returned trace. -/
theorem getTraceVisible_unsupported_counterexample : ¬ ClaimC5 := by
  intro h
  obtain ⟨t, ht⟩ := h.2 freshPlayer
  exact absurd ht (by simp [ioAutomataConcretePlayer.getTraceVisible])

/-- C5 (amended): the single-listener adapter returns the visible trace
from `getTraceVisible`, and its `resetTrace` clears the hidden and
visible traces together; the network adapter's `getTraceVisible`
unconditionally panics "unsupported", and its `resetTrace` sets its
single saved-trace pointer to nil. -/
theorem adapter_trace_contract_amended :
    (∀ w : ioAutomataConcrete,
       w.getTraceVisible = w.savedTrace ∧
       w.resetTrace = { w with savedHiddenTrace := ⟨[]⟩, savedTrace := ⟨[]⟩ })
    ∧ (∀ w : ioAutomataConcretePlayer,
       w.getTraceVisible = .error "unsupported" ∧
       w.resetTrace = { w with savedTrace := none }) :=
  ⟨fun _ => ⟨rfl, rfl⟩, fun _ => ⟨rfl, rfl⟩⟩

/-- C6: a test case whose input count is neither the output count nor
one more fails immediately with the malformed-test-case error on the
runtime-error channel and a nil invalid verdict; the result is the same
for every automaton session - including one whose `getTrace` would
panic - showing the automaton is never consulted, let alone driven. -/
theorem malformed_testcase_immediate (tc : determisticTraceTestCase)
    (a : AutoSession)
    (h1 : tc.inputs.length ≠ tc.expectedOutputs.length)
    (h2 : tc.inputs.length ≠ tc.expectedOutputs.length + 1) :
    ValidateAsExtension tc a = .ok (none, some .malformedTestCase) := by
  unfold ValidateAsExtension
  rw [if_pos ⟨h1, h2⟩]

/-- Witness for C6: one input against three expected outputs, on a
fresh network adapter whose `getTrace` would panic if consulted. -/
theorem malformed_testcase_immediate_witness :
    ValidateAsExtension tcMalformed (playerSession machineNoActions freshPlayer) =
      .ok (none, some .malformedTestCase) :=
  malformed_testcase_immediate tcMalformed
    (playerSession machineNoActions freshPlayer) (by decide) (by decide)

/-- C7: for the single-listener adapter, a crash inside the wrapped
handler is caught (never propagates: `transition` always returns) and
comes back as the typed panic error with a nil ordinary error and the
hidden trace unchanged - only the events routed before the crash extend
the visible trace; on a normal return the (input, output) pair is
appended to both the hidden and the visible traces. -/
theorem concrete_transition_crash_and_append (l : Listener)
    (w : ioAutomataConcrete) (i : EventV) :
    (∀ r, l.handle w.history i = .error r →
       ioAutomataConcrete.transition l w i =
         ({ savedHiddenTrace := w.savedHiddenTrace,
            savedTrace := ⟨w.savedTrace.events ++ l.dispatched w.history i⟩,
            history := w.history ++ [i] }, none, some (.msg r)))
    ∧ (∀ out, l.handle w.history i = .ok out →
       ioAutomataConcrete.transition l w i =
         ({ savedHiddenTrace := ⟨w.savedHiddenTrace.events ++ [i, out]⟩,
            savedTrace := ⟨w.savedTrace.events ++ l.dispatched w.history i ++ [i, out]⟩,
            history := w.history ++ [i] }, none, none)) := by
  constructor
  · intro r hr
    unfold ioAutomataConcrete.transition
    rw [hr]
  · intro out hout
    unfold ioAutomataConcrete.transition
    rw [hout]
    simp [ioTrace.extend, List.append_assoc]

/-- Witness for C7: the always-panicking listener on a fresh adapter. -/
theorem concrete_transition_crash_and_append_witness :
    ioAutomataConcrete.transition listenerAlwaysPanic freshConcrete evTimeout =
      ({ savedHiddenTrace := ⟨[]⟩, savedTrace := ⟨[]⟩, history := [evTimeout] },
        none, some (.msg "boom")) :=
  (concrete_transition_crash_and_append listenerAlwaysPanic freshConcrete
    evTimeout).1 "boom" rfl

/-- C9: the network adapter's `getTrace` dereferences its saved-trace
pointer, which is nil on a freshly constructed adapter and again after
`resetTrace`; so `getTrace` crashes with a nil-pointer panic instead of
returning an empty trace, and `ValidateAsExtension` on such an adapter
(with a well-shaped test case, so that the shape check passes) crashes
at its initial existing-trace-length read. -/
theorem player_getTrace_nil_deref :
    (ioAutomataConcretePlayer.getTrace freshPlayer =
       .error "runtime error: invalid memory address or nil pointer dereference")
    ∧ (∀ w : ioAutomataConcretePlayer, w.resetTrace.getTrace =
       .error "runtime error: invalid memory address or nil pointer dereference")
    ∧ (∀ (tc : determisticTraceTestCase) (m : PlayerMachine)
         (w : ioAutomataConcretePlayer), w.savedTrace = none →
       (tc.inputs.length = tc.expectedOutputs.length ∨
        tc.inputs.length = tc.expectedOutputs.length + 1) →
       ValidateAsExtension tc (playerSession m w) =
         .error "runtime error: invalid memory address or nil pointer dereference") := by
  refine ⟨rfl, fun w => rfl, ?_⟩
  intro tc m w hnil hshape
  have hcond : ¬ (tc.inputs.length ≠ tc.expectedOutputs.length ∧
      tc.inputs.length ≠ tc.expectedOutputs.length + 1) := by
    rcases hshape with h | h <;> simp [h]
  unfold ValidateAsExtension
  rw [if_neg hcond]
  have htr : (playerSession m w).trace0 =
      .error "runtime error: invalid memory address or nil pointer dereference" := by
    simp [playerSession, ioAutomataConcretePlayer.getTrace, hnil]
  rw [htr]

/-- Witness for C9: a well-shaped one-pair test case against a fresh
network adapter. -/
theorem player_getTrace_nil_deref_witness :
    ValidateAsExtension tcOnePair (playerSession machineNoActions freshPlayer) =
      .error "runtime error: invalid memory address or nil pointer dereference" :=
  player_getTrace_nil_deref.2.2 tcOnePair machineNoActions freshPlayer rfl
    (by decide)

/-- C10: for both adapter variants and every input, the ordinary `err`
result of `transition` and `transitionAll` is always nil - the error
branches guarding the trace-extension calls are unreachable, because
every `extend` call is made with a non-nil argument slice (a
one-element slice for single events; the Go `make`-produced output
slice for the network adapter) - so the typed panic error is the only
non-nil failure channel an adapter can return. -/
theorem adapters_err_always_nil :
    (∀ (l : Listener) (w : ioAutomataConcrete) (i : EventV),
       (ioAutomataConcrete.transition l w i).2.1 = none)
    ∧ (∀ (l : Listener) (w : ioAutomataConcrete) (inputs : List EventV),
       (ioAutomataConcrete.transitionAll l w inputs).2.1 = none)
    ∧ (∀ (m : PlayerMachine) (w : ioAutomataConcretePlayer) (i : EventV),
       (ioAutomataConcretePlayer.transition m w i).2.1 = none)
    ∧ (∀ (m : PlayerMachine) (w : ioAutomataConcretePlayer)
         (inputs : List EventV),
       (ioAutomataConcretePlayer.transitionAll m w inputs).2.1 = none) :=
  ⟨concrete_transition_err_none,
   fun l w inputs => concrete_transitionAll_err_none l inputs w,
   player_transition_err_none,
   fun m w inputs => player_transitionAll_err_none m inputs w⟩

/-- Formalisation of claim C2 as stated, quantified over everything
`ValidateAsExtension` observes of an automaton (an `AutoSession`):
(a) with equally many inputs and expected outputs, a panic during the
run yields the "panicked when not expected" invalid verdict with nil
runtime error; (b) with one extra input, the absence of a panic yields
the "did not panic" invalid verdict with nil runtime error; (c) an
automaton that extends its trace by exactly the expected interleaving
and panics on the final input validates as (nil, nil). -/
def ClaimC2 : Prop :=
  (∀ (tc : determisticTraceTestCase) (a : AutoSession),
     tc.inputs.length = tc.expectedOutputs.length →
     (a.run tc.inputs).1.2 ≠ none →
     ∃ q, ValidateAsExtension tc a =
       .ok (some (.panickedWhenNotExpected q), none))
  ∧ (∀ (tc : determisticTraceTestCase) (a : AutoSession),
     tc.inputs.length = tc.expectedOutputs.length + 1 →
     (a.run tc.inputs).1.2 = none →
     ValidateAsExtension tc a = .ok (some .didNotPanic, none))
  ∧ (∀ (tc : determisticTraceTestCase) (a : AutoSession)
       (t0 : List EventV) (p : GoErr),
     tc.inputs.length = tc.expectedOutputs.length + 1 →
     a.trace0 = .ok ⟨t0⟩ →
     a.run tc.inputs = ((none, some p),
       .ok ⟨t0 ++ buildAllEvents tc.inputs tc.expectedOutputs⟩) →
     ValidateAsExtension tc a = .ok (none, none))

/-- C2 (counterexample): with two inputs and two expected outputs, a
machine that produces a wrong first output and panics on the second
input did panic during the run, yet the verdict is the trace-divergence
error, not "panicked when not expected": the divergence check precedes
the crash cross-check. -/
theorem validate_crash_verdicts_counterexample : ¬ ClaimC2 := by
  intro h
  obtain ⟨q, hq⟩ := h.1 tcTwoPairs
    (concreteSession listenerDivergeThenPanic freshConcrete) rfl (by decide)
  have hval : ValidateAsExtension tcTwoPairs
      (concreteSession listenerDivergeThenPanic freshConcrete) =
      .ok (some (.traceDiverge
          ⟨[evTimeout, evNewRound, evPayload, evNewPeriod]⟩
          ⟨[evTimeout, evFiltered]⟩), none) := by decide
  rw [hval] at hq
  simp at hq

/-- C2 (amended): the crash-expectation verdicts as the code implements
them, conditional on the run being err-free and the produced extension
direct-matching the expected interleaved trace (otherwise the
divergence verdict or a runtime error is returned first): (a) equal
lengths and a panic yield "panicked when not expected"; (b) one extra
input and no panic yield "did not panic"; (c) one extra input, a panic,
an extension that is exactly the expected interleaving, and no attached
safety properties validate as (nil, nil). -/
theorem validate_crash_verdicts_amended (tc : determisticTraceTestCase)
    (a : AutoSession) (t0 ext : List EventV) (pe : Option GoErr)
    (h0 : a.trace0 = .ok ⟨t0⟩)
    (h1 : a.run tc.inputs = ((none, pe), .ok ⟨t0 ++ ext⟩))
    (h2 : checkWellFormedList (buildAllEvents tc.inputs tc.expectedOutputs) =
      .ok ())
    (h3 : dmContains ext (buildAllEvents tc.inputs tc.expectedOutputs) =
      some true) :
    (∀ p, tc.inputs.length = tc.expectedOutputs.length → pe = some p →
       ValidateAsExtension tc a =
         .ok (some (.panickedWhenNotExpected p), none))
    ∧ (tc.inputs.length = tc.expectedOutputs.length + 1 → pe = none →
       ValidateAsExtension tc a = .ok (some .didNotPanic, none))
    ∧ (∀ p, tc.inputs.length = tc.expectedOutputs.length + 1 → pe = some p →
       ext = buildAllEvents tc.inputs tc.expectedOutputs →
       tc.safetyProps = [] →
       ValidateAsExtension tc a = .ok (none, none)) := by
  refine ⟨?_, ?_, ?_⟩
  · intro p hlen hpe
    subst hpe
    rw [validate_reduces tc a t0 ext _ (Or.inl hlen) h0 h1 h2 h3]
    unfold crossCheckAndFinish
    rw [if_pos hlen]
  · intro hlen hpe
    subst hpe
    rw [validate_reduces tc a t0 ext _ (Or.inr hlen) h0 h1 h2 h3]
    unfold crossCheckAndFinish
    rw [if_neg (by omega), if_pos hlen]
  · intro p hlen hpe hext hprops
    subst hpe
    rw [validate_reduces tc a t0 ext _ (Or.inr hlen) h0 h1 h2 h3]
    unfold crossCheckAndFinish
    rw [if_neg (by omega), if_pos hlen]
    have hexp : (⟨buildAllEvents tc.inputs tc.expectedOutputs⟩ : ioTrace).length =
        2 * tc.expectedOutputs.length := buildAllEvents_length _ _
    have hout : (⟨t0 ++ ext⟩ : ioTrace).length = t0.length + ext.length := by
      simp [ioTrace.length]
    unfold lengthCheckAndProps
    rw [if_neg (by rw [hexp, hout, hext, buildAllEvents_length]; omega)]
    rw [hprops]
    rfl

/-- Witness for the amended C2 (part c): a machine that answers the
first input with the expected output and panics on the second, against
a test case with one more input than expected outputs, validates as
(nil, nil). -/
theorem validate_crash_verdicts_amended_witness :
    ValidateAsExtension tcPanicExpected
      (concreteSession listenerGoodThenPanic freshConcrete) =
      .ok (none, none) :=
  (validate_crash_verdicts_amended tcPanicExpected
      (concreteSession listenerGoodThenPanic freshConcrete)
      [] [evTimeout, evNewRound] (some (.msg "boom"))
      rfl (by decide) (by decide) (by decide)).2.2
    (.msg "boom") rfl rfl (by decide) rfl

/-- Formalisation of claim C3 as stated, over automaton sessions whose
run is observed err-free and whose trace grows by an extension `ext`:
(a) validation success requires the extension to be at least as long as
the expected interleaved trace; (b) a too-short extension with a panic
yields the "panicked early" invalid verdict with nil runtime error;
(c) a too-short extension without a panic yields the distinct
"trace too short" invalid verdict with nil runtime error. -/
def ClaimC3 : Prop :=
  (∀ (tc : determisticTraceTestCase) (a : AutoSession)
     (t0 ext : List EventV) (pe : Option GoErr),
     a.trace0 = .ok ⟨t0⟩ →
     a.run tc.inputs = ((none, pe), .ok ⟨t0 ++ ext⟩) →
     ValidateAsExtension tc a = .ok (none, none) →
     2 * tc.expectedOutputs.length ≤ ext.length)
  ∧ (∀ (tc : determisticTraceTestCase) (a : AutoSession)
       (t0 ext : List EventV) (p : GoErr),
     a.trace0 = .ok ⟨t0⟩ →
     a.run tc.inputs = ((none, some p), .ok ⟨t0 ++ ext⟩) →
     ext.length < 2 * tc.expectedOutputs.length →
     ∃ oL eL q, ValidateAsExtension tc a =
       .ok (some (.panickedEarly oL eL q), none))
  ∧ (∀ (tc : determisticTraceTestCase) (a : AutoSession)
       (t0 ext : List EventV),
     a.trace0 = .ok ⟨t0⟩ →
     a.run tc.inputs = ((none, none), .ok ⟨t0 ++ ext⟩) →
     ext.length < 2 * tc.expectedOutputs.length →
     ∃ oL eL, ValidateAsExtension tc a =
       .ok (some (.traceTooShort oL eL), none))

/-- C3 (counterexample): the source compares the FULL output trace
length (`outputTraceLen`, line 445) with the expected length, not the
extension's length; an adapter with two pre-existing trace events that
panics immediately (empty extension, inputs one longer than outputs)
passes every check and validates as (nil, nil), although its extension
(0 events) is shorter than the expected trace (2 events). -/
theorem validate_extension_length_counterexample : ¬ ClaimC3 := by
  intro h
  have hlen := h.1 tcPanicExpected
    (concreteSession listenerAlwaysPanic preDrivenConcrete)
    [evTimeout, evNewRound] [] (some (.msg "boom"))
    rfl (by decide) (by decide)
  exact absurd hlen (by decide)

/-- C3 (amended): the length-sanity check compares the FULL accumulated
output trace (pre-existing part included) against the expected
interleaved trace, so for err-free prefix-matching runs: (a) validation
success requires the full trace to be at least as long as the expected
trace; (b) with one extra input and a panic, a too-short full trace
yields the "panicked early" verdict; (c) with equal lengths and no
panic, a too-short full trace yields the distinct "trace too short"
verdict - both invalid verdicts with nil runtime error (the crash
cross-check limits which shape reaches which branch). -/
theorem validate_length_check_amended (tc : determisticTraceTestCase)
    (a : AutoSession) (t0 ext : List EventV) (pe : Option GoErr)
    (hshape : tc.inputs.length = tc.expectedOutputs.length ∨
              tc.inputs.length = tc.expectedOutputs.length + 1)
    (h0 : a.trace0 = .ok ⟨t0⟩)
    (h1 : a.run tc.inputs = ((none, pe), .ok ⟨t0 ++ ext⟩))
    (h2 : checkWellFormedList (buildAllEvents tc.inputs tc.expectedOutputs) =
      .ok ())
    (h3 : dmContains ext (buildAllEvents tc.inputs tc.expectedOutputs) =
      some true) :
    (ValidateAsExtension tc a = .ok (none, none) →
       2 * tc.expectedOutputs.length ≤ t0.length + ext.length)
    ∧ (∀ p, tc.inputs.length = tc.expectedOutputs.length + 1 → pe = some p →
       t0.length + ext.length < 2 * tc.expectedOutputs.length →
       ValidateAsExtension tc a =
         .ok (some (.panickedEarly (t0.length + ext.length)
             (2 * tc.expectedOutputs.length) p), none))
    ∧ (tc.inputs.length = tc.expectedOutputs.length → pe = none →
       t0.length + ext.length < 2 * tc.expectedOutputs.length →
       ValidateAsExtension tc a =
         .ok (some (.traceTooShort (t0.length + ext.length)
             (2 * tc.expectedOutputs.length)), none)) := by
  have hexp : (⟨buildAllEvents tc.inputs tc.expectedOutputs⟩ : ioTrace).length =
      2 * tc.expectedOutputs.length := buildAllEvents_length _ _
  have hout : (⟨t0 ++ ext⟩ : ioTrace).length = t0.length + ext.length := by
    simp [ioTrace.length]
  refine ⟨?_, ?_, ?_⟩
  · intro hok
    rw [validate_reduces tc a t0 ext _ hshape h0 h1 h2 h3] at hok
    have hns := crossCheckAndFinish_ok_not_short tc pe ⟨t0 ++ ext⟩
      ⟨buildAllEvents tc.inputs tc.expectedOutputs⟩ hok
    rw [hexp, hout] at hns
    omega
  · intro p hlen hpe hshort
    subst hpe
    rw [validate_reduces tc a t0 ext _ (Or.inr hlen) h0 h1 h2 h3]
    unfold crossCheckAndFinish
    rw [if_neg (by omega), if_pos hlen]
    unfold lengthCheckAndProps
    rw [if_pos (by rw [hexp, hout]; omega)]
    rw [hexp, hout]
  · intro hlen hpe hshort
    subst hpe
    rw [validate_reduces tc a t0 ext _ (Or.inl hlen) h0 h1 h2 h3]
    unfold crossCheckAndFinish
    rw [if_pos hlen]
    unfold lengthCheckAndProps
    rw [if_pos (by rw [hexp, hout]; omega)]
    rw [hexp, hout]

/-- Witness for the amended C3 (part c): a network adapter with an
allocated empty trace and a machine producing no actions extends the
trace by only the input event, so the full trace (1 event) is shorter
than the expected trace (2 events) and the verdict is
"trace too short". -/
theorem validate_length_check_amended_witness :
    ValidateAsExtension tcOnePair
      (playerSession machineNoActions allocatedPlayer) =
      .ok (some (.traceTooShort 1 2), none) := by
  have h := (validate_length_check_amended tcOnePair
      (playerSession machineNoActions allocatedPlayer)
      [] [evTimeout] none (Or.inl rfl)
      rfl (by decide) (by decide) (by decide)).2.2 rfl rfl (by decide)
  simpa using h
